import Mathlib

/-!
Verification of the ykvlv.github.io watch-history pipeline and playlist
mutation engine.  Definitions are shallow embeddings of the TypeScript
sources (`scripts/sync-trakt.ts`, the newer sync script bundled with the
repo, `src/features/playlists/lib/yandex-music-api.ts`,
`src/features/playlists/hooks/usePlaylistsMutations.ts` and
`src/features/playlists/hooks/usePlaylistsData.ts`).
-/

namespace Ykvlv

-- ==========================================================================
-- Trakt data model (sync-trakt.ts)
-- ==========================================================================

/-- Embeds `interface TraktIds { trakt: number; slug: string }`. -/
structure TraktIds where
  trakt : Nat
  slug : String
  deriving DecidableEq, Repr

/-- Embeds `interface TraktImages { poster?: string[] }`. -/
structure TraktImages where
  poster : Option (List String)
  deriving DecidableEq, Repr

/-- Embeds `interface TraktMovie` (title, year, ids, images?). -/
structure TraktMovie where
  title : String
  year : Nat
  ids : TraktIds
  images : Option TraktImages
  deriving DecidableEq, Repr

/-- Embeds `interface TraktShow` (title, year, ids, images?). -/
structure TraktShow where
  title : String
  year : Nat
  ids : TraktIds
  images : Option TraktImages
  deriving DecidableEq, Repr

/-- Embeds `interface TraktEpisode { season: number; number: number }`. -/
structure TraktEpisode where
  season : Nat
  number : Nat
  deriving DecidableEq, Repr

/-- Embeds `interface TraktSeason { number; first_aired?; images? }`. -/
structure TraktSeason where
  number : Nat
  first_aired : Option String
  images : Option TraktImages
  deriving DecidableEq, Repr

/-- The `type` discriminator of a raw history item (`'movie' | 'episode'`). -/
inductive HistType where
  | movie
  | episode
  deriving DecidableEq, Repr

/-- Embeds `interface TraktHistoryItem`: the discriminator plus the three
optional payload fields, all of which the grouping code re-checks. -/
structure TraktHistoryItem where
  watched_at : String
  type : HistType
  movie : Option TraktMovie
  «show» : Option TraktShow
  episode : Option TraktEpisode
  deriving DecidableEq, Repr

/-- Embeds `interface GroupedSeason`. -/
structure GroupedSeason where
  «show» : TraktShow
  season : Nat
  episodes : List Nat
  watched_at : String
  deriving DecidableEq, Repr

/-- Embeds `type GroupedItem = {movie} | {season}`. -/
inductive GroupedItem where
  | movie (movie : TraktMovie) (watched_at : String)
  | season (group : GroupedSeason)
  deriving DecidableEq, Repr

-- ==========================================================================
-- groupHistory (sync-trakt.ts, lines 278-323)
-- ==========================================================================

/-- Emits the open group at a flush point (`items.push({type:'season',...})`
guarded by `if (currentGroup)`). -/
def closeGroup : Option GroupedSeason → List GroupedItem
  | none => []
  | some g => [.season g]

/-- The loop body of `groupHistory`: walks the history with the mutable
`currentGroup` made explicit.  An item enters the movie branch only when
`item.type === 'movie' && item.movie`, the episode branch only when
`item.type === 'episode' && item.«show» && item.episode`; any other item is
skipped, leaving the open group untouched. -/
def groupHistoryGo : Option GroupedSeason → List TraktHistoryItem → List GroupedItem
  | cur, [] => closeGroup cur
  | cur, item :: rest =>
    match item.type, item.movie, item.«show», item.episode with
    | .movie, some m, _, _ =>
      closeGroup cur ++ (.movie m item.watched_at :: groupHistoryGo none rest)
    | .episode, _, some sh, some ep =>
      match cur with
      | some g =>
        if g.«show».ids.trakt = sh.ids.trakt ∧ g.season = ep.season then
          groupHistoryGo (some { g with episodes := g.episodes ++ [ep.number] }) rest
        else
          .season g :: groupHistoryGo
            (some ⟨sh, ep.season, [ep.number], item.watched_at⟩) rest
      | none =>
        groupHistoryGo (some ⟨sh, ep.season, [ep.number], item.watched_at⟩) rest
    | _, _, _, _ => groupHistoryGo cur rest

/-- Embeds `function groupHistory(history)`. -/
def groupHistory (history : List TraktHistoryItem) : List GroupedItem :=
  groupHistoryGo none history

/-- Concatenation, in emission order, of the episode-number lists of the
season records of a grouped output. -/
def flatEpisodes : List GroupedItem → List Nat
  | [] => []
  | .movie _ _ :: rest => flatEpisodes rest
  | .season g :: rest => g.episodes ++ flatEpisodes rest

/-- Episode numbers of the well-formed episode events of the raw input, in
input order (an event is well-formed exactly when the source's episode
branch guard `item.type === 'episode' && item.«show» && item.episode` holds). -/
def inputEpisodes : List TraktHistoryItem → List Nat
  | [] => []
  | item :: rest =>
    match item.type, item.«show», item.episode with
    | .episode, some _, some ep => ep.number :: inputEpisodes rest
    | _, _, _ => inputEpisodes rest

/-- Episode numbers already accumulated in the open group. -/
def curEpisodes : Option GroupedSeason → List Nat
  | none => []
  | some g => g.episodes

-- ==========================================================================
-- Spec-level grouping (spec 4.1 / 8): maximal adjacent runs
-- ==========================================================================

/-- Normalised watch event: the spec's `WatchEvent` discriminated union,
i.e. a raw history item that passed one of the two well-formedness guards. -/
inductive NormEvent where
  | movie (m : TraktMovie) (watchedAt : String)
  | ep («show» : TraktShow) (season : Nat) (number : Nat) (watchedAt : String)
  deriving DecidableEq, Repr

/-- Keeps the well-formed events of the raw input, using exactly the
source's branch guards. -/
def normalize : List TraktHistoryItem → List NormEvent
  | [] => []
  | item :: rest =>
    match item.type, item.movie, item.«show», item.episode with
    | .movie, some m, _, _ => .movie m item.watched_at :: normalize rest
    | .episode, _, some sh, some ep =>
      .ep sh ep.season ep.number item.watched_at :: normalize rest
    | _, _, _, _ => normalize rest

/-- Does the event extend a run of show `sh`, season `sn`?  Movies never
do; an episode does exactly when both show id and season match. -/
def sameKey (sh : TraktShow) (sn : Nat) : NormEvent → Bool
  | .movie _ _ => false
  | .ep sh2 sn2 _ _ => sh2.ids.trakt = sh.ids.trakt ∧ sn2 = sn

/-- Episode number of a normalised event (0 for a movie; only applied to
episode events). -/
def epNum : NormEvent → Nat
  | .movie _ _ => 0
  | .ep _ _ n _ => n

/-- Specification-level grouping, following the spec's words (spec 4.1 and
the testable property of spec 8): each season record is one maximal run of
consecutive episode events sharing show id and season; any intervening
movie or different-key episode ends the run, so a show+season pair that
reappears non-consecutively starts a new record. -/
def chunkSpec : List NormEvent → List GroupedItem
  | [] => []
  | .movie m w :: rest => .movie m w :: chunkSpec rest
  | .ep sh sn n w :: rest =>
    .season ⟨sh, sn, n :: (rest.takeWhile (sameKey sh sn)).map epNum, w⟩ ::
      chunkSpec (rest.dropWhile (sameKey sh sn))
termination_by evs => evs.length
decreasing_by
  · simp
  · exact Nat.lt_succ_of_le (List.dropWhile_sublist _).length_le

/-- The `groupHistory` automaton restricted to well-formed events; bridge
between the raw loop and the spec-level chunking. -/
def normGo : Option GroupedSeason → List NormEvent → List GroupedItem
  | cur, [] => closeGroup cur
  | cur, .movie m w :: rest => closeGroup cur ++ (.movie m w :: normGo none rest)
  | cur, .ep sh sn n w :: rest =>
    match cur with
    | some g =>
      if g.«show».ids.trakt = sh.ids.trakt ∧ g.season = sn then
        normGo (some { g with episodes := g.episodes ++ [n] }) rest
      else
        .season g :: normGo (some ⟨sh, sn, [n], w⟩) rest
    | none => normGo (some ⟨sh, sn, [n], w⟩) rest

-- ==========================================================================
-- Helpers of sync-trakt.ts
-- ==========================================================================

/-- Embeds `toDateString(iso) = iso.split('T')[0]`: the prefix of the
string before its first `T` (the whole string when no `T` occurs). -/
def toDateString (iso : String) : String :=
  ⟨iso.data.takeWhile (fun c => c ≠ 'T')⟩

/-- Embeds `getPosterUrl(images)`: takes `images?.poster?.[0]`, treats a
missing or empty string as absent (`if (!poster) return undefined`), and
prefixes `https://` unless the value already starts with `http`. -/
def getPosterUrl (images : Option TraktImages) : Option String :=
  match images with
  | none => none
  | some imgs =>
    match imgs.poster with
    | none => none
    | some lst =>
      match lst.head? with
      | none => none
      | some p =>
        if p = "" then none
        else if p.startsWith "http" then some p
        else some ("https://" ++ p)

/-- Embeds `buildShowUrl(slug, season, episode?)`; `episode ? ... : base`
is a JS truthiness test, so episode number 0 yields the bare season URL. -/
def buildShowUrl (slug : String) (season : Nat) (episode : Option Nat) : String :=
  let base := "https://trakt.tv/shows/" ++ slug ++ "/seasons/" ++ toString season
  match episode with
  | some e => if e = 0 then base else base ++ "/episodes/" ++ toString e
  | none => base

/-- JS truthiness guard for an optional string spread
(`...(poster && { poster })`): the empty string is dropped. -/
def truthyStr : Option String → Option String
  | some s => if s = "" then none else some s
  | none => none

/-- JS truthiness guard for an optional number spread
(`...(rating && { rating })`): the number 0 is dropped. -/
def truthyNat : Option Nat → Option Nat
  | some n => if n = 0 then none else some n
  | none => none

/-- Models `new Date(iso).getFullYear()` on the ISO-8601 strings Trakt
returns: the leading four digits. -/
def dateYear (iso : String) : Nat :=
  ((iso.take 4).toNat?).getD 0

-- ==========================================================================
-- formatEpisodeSubtitle (sync-trakt.ts, lines 450-466)
-- ==========================================================================

/-- Ascending insertion step for the numeric sort `(a, b) => a - b`. -/
def insertSorted (n : Nat) : List Nat → List Nat
  | [] => [n]
  | m :: rest => if n ≤ m then n :: m :: rest else m :: insertSorted n rest

/-- Ascending numeric sort, modelling `[...episodes].sort((a, b) => a - b)`. -/
def sortAsc (l : List Nat) : List Nat :=
  l.foldr insertSorted []

/-- Embeds `sorted.every((ep, i) => i === 0 || ep === sorted[i-1] + 1)`. -/
def consecutiveB : List Nat → Bool
  | [] => true
  | [_] => true
  | a :: b :: rest => (b = a + 1) && consecutiveB (b :: rest)

/-- Embeds `formatEpisodeSubtitle(season, episodes)`.  The empty episode
list never occurs (every group carries at least one episode). -/
def formatEpisodeSubtitle (season : Nat) (episodes : List Nat) : String :=
  let sorted := sortAsc episodes
  if sorted.length = 1 then
    "S" ++ toString season ++ " E" ++ toString (sorted.headD 0)
  else if consecutiveB sorted then
    "S" ++ toString season ++ " E" ++ toString (sorted.headD 0) ++ "-" ++
      toString (sorted.getLastD 0)
  else
    "S" ++ toString season ++ " E" ++ String.intercalate "," (sorted.map toString)

-- ==========================================================================
-- Ratings (sync-trakt.ts getRatings output) and enrichItems
-- ==========================================================================

/-- Embeds `interface Ratings`: four key spaces, the composite ones keyed
by the interpolated strings the source builds. -/
structure Ratings where
  movies : List (Nat × Nat)
  shows : List (Nat × Nat)
  seasons : List (String × Nat)
  episodes : List (String × Nat)
  deriving DecidableEq, Repr

/-- The season rating key `` `${showId}-${season}` ``. -/
def ratingKey2 (showId season : Nat) : String :=
  toString showId ++ "-" ++ toString season

/-- The episode rating key `` `${showId}-${season}-${number}` ``. -/
def ratingKey3 (showId season number : Nat) : String :=
  toString showId ++ "-" ++ toString season ++ "-" ++ toString number

/-- Output item discriminator (`'movie' | 'episode' | 'season'`). -/
inductive ItemKind where
  | movie
  | episode
  | season
  deriving DecidableEq, Repr

/-- Embeds `interface WatchlogItem`; optional fields that the source adds
through truthiness-guarded spreads are `Option`s. -/
structure WatchlogItem where
  type : ItemKind
  title : String
  subtitle : Option String
  year : Nat
  poster : Option String
  watched_at : String
  trakt_url : String
  rating : Option Nat
  deriving DecidableEq, Repr

/-- Per-show season metadata: `Map<string, Map<number, TraktSeason>>`. -/
def SeasonsMap : Type :=
  List (String × List (Nat × TraktSeason))

/-- Embeds the body of `enrichItems` for one grouped record. -/
def enrichOne (seasonsMap : SeasonsMap) (ratings : Ratings) :
    GroupedItem → WatchlogItem
  | .movie m w =>
    let poster := getPosterUrl m.images
    let rating := ratings.movies.lookup m.ids.trakt
    { type := .movie
      title := m.title
      subtitle := none
      year := m.year
      poster := truthyStr poster
      watched_at := toDateString w
      trakt_url := "https://trakt.tv/movies/" ++ m.ids.slug
      rating := truthyNat rating }
  | .season g =>
    let showSeasons := seasonsMap.lookup g.«show».ids.slug
    let seasonData := showSeasons.bind (fun m => m.lookup g.season)
    let episodes := g.episodes
    let year :=
      match seasonData.bind (fun s => s.first_aired) with
      | some fa => if fa = "" then g.«show».year else dateYear fa
      | none => g.«show».year
    let poster :=
      (getPosterUrl (seasonData.bind (fun s => s.images))).orElse
        (fun _ => getPosterUrl g.«show».images)
    let subtitle := formatEpisodeSubtitle g.season episodes
    let showId := g.«show».ids.trakt
    let seasonKey := ratingKey2 showId g.season
    let seasonRating :=
      (ratings.seasons.lookup seasonKey).orElse
        (fun _ => ratings.shows.lookup showId)
    if episodes.length = 1 then
      let episodeKey := ratingKey3 showId g.season (episodes.headD 0)
      let rating := (ratings.episodes.lookup episodeKey).orElse (fun _ => seasonRating)
      { type := .episode
        title := g.«show».title
        subtitle := some subtitle
        year := year
        poster := truthyStr poster
        watched_at := toDateString g.watched_at
        trakt_url := buildShowUrl g.«show».ids.slug g.season (some (episodes.headD 0))
        rating := truthyNat rating }
    else
      { type := .season
        title := g.«show».title
        subtitle := some subtitle
        year := year
        poster := truthyStr poster
        watched_at := toDateString g.watched_at
        trakt_url := buildShowUrl g.«show».ids.slug g.season none
        rating := truthyNat seasonRating }

/-- Embeds `function enrichItems(grouped, seasonsMap, ratings)`. -/
def enrichItems (grouped : List GroupedItem) (seasonsMap : SeasonsMap)
    (ratings : Ratings) : List WatchlogItem :=
  grouped.map (enrichOne seasonsMap ratings)

-- ==========================================================================
-- Calendar grouping (newer sync script bundled under src/uno.config.ts)
-- ==========================================================================

/-- Embeds `type EpisodeType` of `src/types/watchlog.ts`. -/
inductive EpisodeType where
  | standard
  | series_premiere
  | season_premiere
  | mid_season_premiere
  | mid_season_finale
  | season_finale
  | series_finale
  deriving DecidableEq, Repr

/-- Embeds `const EPISODE_TYPE_PRIORITY` (higher = more important). -/
def EPISODE_TYPE_PRIORITY : EpisodeType → Nat
  | .series_finale => 6
  | .season_finale => 5
  | .mid_season_finale => 4
  | .series_premiere => 3
  | .season_premiere => 2
  | .mid_season_premiere => 1
  | .standard => 0

/-- The `episode` payload `{ season; number; episode_type }` of a calendar
entry. -/
structure CalendarEpisodeInfo where
  season : Nat
  number : Nat
  episode_type : EpisodeType
  deriving DecidableEq, Repr

/-- Embeds `interface TraktCalendarEpisode`. -/
structure TraktCalendarEpisode where
  first_aired : String
  episode : CalendarEpisodeInfo
  «show» : TraktShow
  deriving DecidableEq, Repr

/-- Embeds `interface GroupedCalendarEpisode`. -/
structure GroupedCalendarEpisode where
  «show» : TraktShow
  season : Nat
  date : String
  episodes : List Nat
  episode_type : EpisodeType
  deriving DecidableEq, Repr

/-- The map key `` `${date}|${ep.show.ids.slug}|${ep.episode.season}` ``. -/
def calKey (ep : TraktCalendarEpisode) : String :=
  toDateString ep.first_aired ++ "|" ++ ep.«show».ids.slug ++ "|" ++
    toString ep.episode.season

/-- The key a stored group answers to (its date, slug, season components). -/
def gKey (g : GroupedCalendarEpisode) : String :=
  g.date ++ "|" ++ g.«show».ids.slug ++ "|" ++ toString g.season

/-- Collision body of `groupCalendarEpisodes`: push the episode number and
keep the most significant episode type (strictly-greater replacement). -/
def mergeCalEp (g : GroupedCalendarEpisode) (ep : TraktCalendarEpisode) :
    GroupedCalendarEpisode :=
  { g with
    episodes := g.episodes ++ [ep.episode.number]
    episode_type :=
      if EPISODE_TYPE_PRIORITY ep.episode.episode_type >
          EPISODE_TYPE_PRIORITY g.episode_type then
        ep.episode.episode_type
      else g.episode_type }

/-- In-place value update of the insertion-ordered map, as `Map.set` on an
existing key leaves the entry's position unchanged. -/
def calUpdate (key : String) (ep : TraktCalendarEpisode) :
    List (String × GroupedCalendarEpisode) → List (String × GroupedCalendarEpisode)
  | [] => []
  | (k, g) :: rest =>
    if k = key then (k, mergeCalEp g ep) :: rest
    else (k, g) :: calUpdate key ep rest

/-- The loop of `groupCalendarEpisodes` over the insertion-ordered map. -/
def groupCalendarGo (acc : List (String × GroupedCalendarEpisode)) :
    List TraktCalendarEpisode → List (String × GroupedCalendarEpisode)
  | [] => acc
  | ep :: rest =>
    let key := calKey ep
    match acc.lookup key with
    | some _ => groupCalendarGo (calUpdate key ep acc) rest
    | none =>
      groupCalendarGo
        (acc ++ [(key, ⟨ep.«show», ep.episode.season, toDateString ep.first_aired,
          [ep.episode.number], ep.episode.episode_type⟩)]) rest

/-- Embeds `function groupCalendarEpisodes(episodes)`
(`Array.from(groups.values())`). -/
def groupCalendarEpisodes (episodes : List TraktCalendarEpisode) :
    List GroupedCalendarEpisode :=
  (groupCalendarGo [] episodes).map Prod.snd

-- ==========================================================================
-- YandexMusicAPI.addTrackToPlaylist (yandex-music-api.ts, lines 207-265)
-- ==========================================================================

/-- Embeds `MAX_REVISION_RETRIES` of the playlists feature config. -/
def MAX_REVISION_RETRIES : Nat := 3

/-- Embeds `RETRY_BASE_DELAY_MS`. -/
def RETRY_BASE_DELAY_MS : Nat := 100

/-- Embeds `RETRY_MAX_DELAY_MS`. -/
def RETRY_MAX_DELAY_MS : Nat := 2000

/-- Error thrown by a network step: a transport abort (`AbortError`) or an
HTTP failure carrying its message string. -/
inductive NetErr where
  | abort
  | api (msg : String)
  deriving DecidableEq, Repr

/-- Mocked behaviour of one attempt of the retry loop: the revision GET
throws, the diff POST throws, or both calls succeed. -/
inductive AttemptBeh where
  | getThrows (e : NetErr)
  | postThrows (e : NetErr)
  | ok
  deriving DecidableEq, Repr

/-- Remote calls and backoff delays performed by one invocation. -/
structure RetryTrace where
  revGets : Nat
  posts : Nat
  delays : List Nat
  deriving DecidableEq, Repr

/-- Embeds JS `msg.includes(pat)`: the pattern's characters occur
contiguously in the message. -/
def strIncludes (msg pat : String) : Bool :=
  decide (List.IsInfix pat.data msg.data)

/-- Embeds the conflict test
`err.message.includes('revision') || err.message.includes('conflict') ||
err.message.includes('409')`. -/
def isRevisionConflictMsg (msg : String) : Bool :=
  strIncludes msg "revision" || strIncludes msg "conflict" || strIncludes msg "409"

/-- Embeds `Math.min(RETRY_BASE_DELAY_MS * Math.pow(2, attempt),
RETRY_MAX_DELAY_MS)`. -/
def backoffDelay (attempt : Nat) : Nat :=
  min (RETRY_BASE_DELAY_MS * 2 ^ attempt) RETRY_MAX_DELAY_MS

/-- The `for (let attempt = 0; attempt < retries; attempt++)` loop of
`YandexMusicAPI.addTrackToPlaylist`, with the mutable loop index explicit
and `fuel = retries - attempt` driving termination.  Each iteration:
`checkAborted`, revision GET, diff POST; in the catch block an abort
rethrows, a non-conflict error rethrows, a conflict on the last attempt
throws the wrapped message, otherwise the capped exponential backoff delay
runs and the loop continues.  An abort during `abortableDelay` is
represented by the next iteration's `checkAborted` observing the signal. -/
def addTrackGo (beh : Nat → AttemptBeh) (sig : Nat → Bool) (retries : Nat) :
    Nat → Nat → Except NetErr Unit × RetryTrace
  | _, 0 => (Except.ok (), ⟨0, 0, []⟩)
  | attempt, n + 1 =>
    if sig attempt then
      (Except.error NetErr.abort, ⟨0, 0, []⟩)
    else
      match beh attempt with
      | .ok => (Except.ok (), ⟨1, 1, []⟩)
      | .getThrows NetErr.abort => (Except.error NetErr.abort, ⟨1, 0, []⟩)
      | .getThrows (NetErr.api msg) =>
        if isRevisionConflictMsg msg = false then
          (Except.error (NetErr.api msg), ⟨1, 0, []⟩)
        else if attempt = retries - 1 then
          (Except.error (NetErr.api
            ("Failed to add track after " ++ toString retries ++ " attempts: " ++ msg)),
            ⟨1, 0, []⟩)
        else
          let d := backoffDelay attempt
          let r := addTrackGo beh sig retries (attempt + 1) n
          (r.1, ⟨1 + r.2.revGets, r.2.posts, d :: r.2.delays⟩)
      | .postThrows NetErr.abort => (Except.error NetErr.abort, ⟨1, 1, []⟩)
      | .postThrows (NetErr.api msg) =>
        if isRevisionConflictMsg msg = false then
          (Except.error (NetErr.api msg), ⟨1, 1, []⟩)
        else if attempt = retries - 1 then
          (Except.error (NetErr.api
            ("Failed to add track after " ++ toString retries ++ " attempts: " ++ msg)),
            ⟨1, 1, []⟩)
        else
          let d := backoffDelay attempt
          let r := addTrackGo beh sig retries (attempt + 1) n
          (r.1, ⟨1 + r.2.revGets, 1 + r.2.posts, d :: r.2.delays⟩)

/-- Embeds `async addTrackToPlaylist(uid, kind, trackId, signal, retries)`
as a function of the mocked per-attempt network behaviour. -/
def apiAddTrackToPlaylist (beh : Nat → AttemptBeh) (sig : Nat → Bool)
    (retries : Nat) : Except NetErr Unit × RetryTrace :=
  addTrackGo beh sig retries 0 retries

-- ==========================================================================
-- usePlaylistsMutations (usePlaylistsMutations.ts)
-- ==========================================================================

/-- Embeds `interface MutationResult { success; error? }`. -/
structure MutationResult where
  success : Bool
  error : Option String
  deriving DecidableEq, Repr

/-- A network mutation issued by the hook (an invocation of
`api.addTrackToPlaylist` or `api.unlikeTrack`). -/
inductive NetCall where
  | addTrack (trackId : String) (playlistKind : Nat)
  | unlike (trackId : String)
  deriving DecidableEq, Repr

/-- Callback invocations delivered to the parent hook
(`MutationCallbacks`). -/
inductive CbEvent where
  | trackAdded (trackId : String) (playlistKind : Nat)
  | trackUnliked (trackId : String)
  | addRollback (trackId : String) (playlistKind : Nat)
  | unlikeRollback (trackId : String)
  | mutationDuringRefresh
  deriving DecidableEq, Repr

/-- Synchronous state of one `usePlaylistsMutations` session: the pending
refs, the in-flight promise maps (track id → promise identity), the abort
controller map (keyed by mutation key), a log of the api calls issued so
far and a fresh-promise counter.  `apiReady` is `api !== null && uid`. -/
structure HookState where
  apiReady : Bool
  pendingAdds : List String
  pendingUnlikes : List String
  inFlightAdds : List (String × Nat)
  inFlightUnlikes : List (String × Nat)
  abortControllers : List String
  netLog : List NetCall
  nextPromiseId : Nat
  deriving DecidableEq, Repr

/-- What a mutation call hands back synchronously: an immediate result
(api/uid missing) or a promise identity — two calls receiving the same
identity resolve to the same outcome value. -/
inductive StartOut where
  | immediate (r : MutationResult)
  | promise (pid : Nat)
  deriving DecidableEq, Repr

/-- JS `Set.add`: append unless present. -/
def setAdd (x : String) (l : List String) : List String :=
  if l.contains x then l else l ++ [x]

/-- JS `Set.delete`: the element is no longer in the set. -/
def setDelete (x : String) (l : List String) : List String :=
  l.filter (fun y => y ≠ x)

/-- The mutation key `` `add_${trackId}_${playlistKind}` ``. -/
def addMutationKey (trackId : String) (playlistKind : Nat) : String :=
  "add_" ++ trackId ++ "_" ++ toString playlistKind

/-- The mutation key `` `unlike_${trackId}` ``. -/
def unlikeMutationKey (trackId : String) : String :=
  "unlike_" ++ trackId

/-- The synchronous prefix of `addTrackToPlaylist(trackId, playlistKind)`:
fail fast when api/uid are missing; return the existing in-flight promise
when one is registered for this track id; otherwise mark the track
pending, register an abort controller under the mutation key, invoke
`api.addTrackToPlaylist` (the async body runs to its first await), and
register the new promise in the in-flight map. -/
def startAddTrackToPlaylist (s : HookState) (trackId : String)
    (playlistKind : Nat) : StartOut × HookState :=
  if s.apiReady = false then
    (.immediate ⟨false, some "API not initialized"⟩, s)
  else
    match s.inFlightAdds.lookup trackId with
    | some pid => (.promise pid, s)
    | none =>
      let pid := s.nextPromiseId
      (.promise pid,
        { s with
          pendingAdds := setAdd trackId s.pendingAdds
          abortControllers :=
            if s.abortControllers.contains (addMutationKey trackId playlistKind) then
              s.abortControllers
            else s.abortControllers ++ [addMutationKey trackId playlistKind]
          netLog := s.netLog ++ [.addTrack trackId playlistKind]
          inFlightAdds := s.inFlightAdds ++ [(trackId, pid)]
          nextPromiseId := pid + 1 })

/-- The synchronous prefix of `unlikeTrack(trackId)`, mirroring
`startAddTrackToPlaylist`. -/
def startUnlikeTrack (s : HookState) (trackId : String) :
    StartOut × HookState :=
  if s.apiReady = false then
    (.immediate ⟨false, some "API not initialized"⟩, s)
  else
    match s.inFlightUnlikes.lookup trackId with
    | some pid => (.promise pid, s)
    | none =>
      let pid := s.nextPromiseId
      (.promise pid,
        { s with
          pendingUnlikes := setAdd trackId s.pendingUnlikes
          abortControllers :=
            if s.abortControllers.contains (unlikeMutationKey trackId) then
              s.abortControllers
            else s.abortControllers ++ [unlikeMutationKey trackId]
          netLog := s.netLog ++ [.unlike trackId]
          inFlightUnlikes := s.inFlightUnlikes ++ [(trackId, pid)]
          nextPromiseId := pid + 1 })

/-- How the awaited network call resolved. -/
inductive NetOutcome where
  | success
  | failure (msg : String)
  | aborted
  deriving DecidableEq, Repr

/-- Resolution of one mutation promise: the result value returned to the
caller, the parent callbacks invoked, and the state after cleanup. -/
structure FinishResult where
  result : MutationResult
  events : List CbEvent
  state : HookState
  deriving DecidableEq, Repr

/-- The continuation of `addTrackToPlaylist` after `await
api.addTrackToPlaylist(...)` resolves: success commits via `onTrackAdded`
(or flags `onMutationDuringRefresh` while a refresh is running), an
`AbortError` returns the distinguished cancelled result with no callback,
any other error rolls back via `onTrackAddRollback` unless unmounted or
refreshing; the `finally` block unconditionally clears the pending marker,
the abort controller and the in-flight entry (the React state mirror of
the pending set follows the ref, already cleared by the unmount effect
when unmounted). -/
def finishAddTrackToPlaylist (s : HookState) (trackId : String)
    (playlistKind : Nat) (outcome : NetOutcome)
    (isMounted isRefreshing : Bool) : FinishResult :=
  let cleaned : HookState :=
    { s with
      pendingAdds := s.pendingAdds.filter (fun t => t ≠ trackId)
      abortControllers :=
        s.abortControllers.filter (fun k => k ≠ addMutationKey trackId playlistKind)
      inFlightAdds := s.inFlightAdds.filter (fun p => p.1 ≠ trackId) }
  match outcome with
  | .success =>
    { result := ⟨true, none⟩
      events :=
        if isMounted then
          if !isRefreshing then [.trackAdded trackId playlistKind]
          else [.mutationDuringRefresh]
        else []
      state := cleaned }
  | .aborted =>
    { result := ⟨false, some "Request cancelled"⟩
      events := []
      state := cleaned }
  | .failure msg =>
    { result := ⟨false, some msg⟩
      events :=
        if isMounted && !isRefreshing then [.addRollback trackId playlistKind]
        else []
      state := cleaned }

/-- The continuation of `unlikeTrack` after `await api.unlikeTrack(...)`,
mirroring `finishAddTrackToPlaylist`. -/
def finishUnlikeTrack (s : HookState) (trackId : String)
    (outcome : NetOutcome) (isMounted isRefreshing : Bool) : FinishResult :=
  let cleaned : HookState :=
    { s with
      pendingUnlikes := s.pendingUnlikes.filter (fun t => t ≠ trackId)
      abortControllers :=
        s.abortControllers.filter (fun k => k ≠ unlikeMutationKey trackId)
      inFlightUnlikes := s.inFlightUnlikes.filter (fun p => p.1 ≠ trackId) }
  match outcome with
  | .success =>
    { result := ⟨true, none⟩
      events :=
        if isMounted then
          if !isRefreshing then [.trackUnliked trackId]
          else [.mutationDuringRefresh]
        else []
      state := cleaned }
  | .aborted =>
    { result := ⟨false, some "Request cancelled"⟩
      events := []
      state := cleaned }
  | .failure msg =>
    { result := ⟨false, some msg⟩
      events :=
        if isMounted && !isRefreshing then [.unlikeRollback trackId]
        else []
      state := cleaned }

/-- The unmount / uid-change effect cleanup (lines 76-89): abort every
in-flight request's controller, clear the controller map and both pending
sets; the in-flight promise maps are cleared by each promise's own
`finally`. -/
def unmountCleanup (s : HookState) : HookState :=
  { s with
    abortControllers := []
    pendingAdds := []
    pendingUnlikes := [] }

-- ==========================================================================
-- usePlaylistsData local state and mutation callbacks
-- ==========================================================================

/-- One entry of `YandexPlaylist[]` as the local state uses it
(`{ kind, title, trackCount }`). -/
structure PlaylistInfo where
  kind : Nat
  title : String
  trackCount : Nat
  deriving DecidableEq, Repr

/-- The merged local mirror (`localPlaylists ?? fetched`,
`localLikedTrackIds ?? fetched`, `localPlaylistTracks ?? fetched` and the
`mutationsDuringRefreshRef` flag). -/
structure PlaylistsLocalState where
  playlists : List PlaylistInfo
  likedTrackIds : List String
  playlistTracks : List (Nat × List String)
  mutationsDuringRefresh : Bool
  deriving DecidableEq, Repr

/-- JS `Map.set` on `playlistTracks`: replace in place, else append. -/
def mapSet (k : Nat) (v : List String) :
    List (Nat × List String) → List (Nat × List String)
  | [] => [(k, v)]
  | (k2, v2) :: rest =>
    if k2 = k then (k2, v) :: rest else (k2, v2) :: mapSet k v rest

/-- Embeds the `onTrackAdded` callback of `usePlaylistsData`: validate the
playlist exists, insert the track into its membership set, and increment
`trackCount` only when the track was actually new. -/
def onTrackAdded (s : PlaylistsLocalState) (trackId : String)
    (playlistKind : Nat) : PlaylistsLocalState :=
  if (s.playlists.any fun p => p.kind == playlistKind) = false then s
  else
    let tracks := (s.playlistTracks.lookup playlistKind).getD []
    let wasActuallyAdded := tracks.contains trackId = false
    let s1 := { s with
      playlistTracks := mapSet playlistKind (setAdd trackId tracks) s.playlistTracks }
    if wasActuallyAdded then
      { s1 with
        playlists := s1.playlists.map fun p =>
          if p.kind == playlistKind then { p with trackCount := p.trackCount + 1 }
          else p }
    else s1

/-- Embeds the `onTrackAddRollback` callback: validate the playlist
exists, delete the track from its membership set, and decrement
`trackCount` (`Math.max(0, c - 1)`, which is `Nat` subtraction) only when
the track was actually in the set. -/
def onTrackAddRollback (s : PlaylistsLocalState) (trackId : String)
    (playlistKind : Nat) : PlaylistsLocalState :=
  if (s.playlists.any fun p => p.kind == playlistKind) = false then s
  else
    let tracks := (s.playlistTracks.lookup playlistKind).getD []
    let wasActuallyInSet := tracks.contains trackId
    let s1 := { s with
      playlistTracks := mapSet playlistKind (setDelete trackId tracks) s.playlistTracks }
    if wasActuallyInSet then
      { s1 with
        playlists := s1.playlists.map fun p =>
          if p.kind == playlistKind then { p with trackCount := p.trackCount - 1 }
          else p }
    else s1

/-- Embeds `onTrackUnliked`: remove the track from the liked list. -/
def onTrackUnliked (s : PlaylistsLocalState) (trackId : String) :
    PlaylistsLocalState :=
  { s with likedTrackIds := s.likedTrackIds.filter (fun id => id ≠ trackId) }

/-- Embeds `onTrackUnlikedRollback`: restore the track unless already
present. -/
def onTrackUnlikedRollback (s : PlaylistsLocalState) (trackId : String) :
    PlaylistsLocalState :=
  if s.likedTrackIds.contains trackId then s
  else { s with likedTrackIds := s.likedTrackIds ++ [trackId] }

/-- Embeds `onMutationDuringRefresh`: set the shared flag. -/
def onMutationDuringRefresh (s : PlaylistsLocalState) : PlaylistsLocalState :=
  { s with mutationsDuringRefresh := true }

/-- Dispatches one callback event to the handlers `usePlaylistsData`
wires into `usePlaylistsMutations`. -/
def applyCallback (s : PlaylistsLocalState) : CbEvent → PlaylistsLocalState
  | .trackAdded t p => onTrackAdded s t p
  | .trackUnliked t => onTrackUnliked s t
  | .addRollback t p => onTrackAddRollback s t p
  | .unlikeRollback t => onTrackUnlikedRollback s t
  | .mutationDuringRefresh => onMutationDuringRefresh s

/-- Applies a sequence of callback events in order. -/
def applyEvents (s : PlaylistsLocalState) (evs : List CbEvent) :
    PlaylistsLocalState :=
  evs.foldl applyCallback s

/-- Observation: is the track in the playlist's membership set. -/
def memberOf (s : PlaylistsLocalState) (kind : Nat) (trackId : String) : Bool :=
  ((s.playlistTracks.lookup kind).getD []).contains trackId

/-- Observation: the displayed `trackCount` of a playlist. -/
def countOf (s : PlaylistsLocalState) (kind : Nat) : Option Nat :=
  (s.playlists.find? (fun p => p.kind == kind)).map (fun p => p.trackCount)

-- ==========================================================================
-- TraktClient token lifecycle (newer sync script bundled under
-- src/uno.config.ts: ensureValidToken / refreshTokens /
-- updateGitHubTokenSecrets)
-- ==========================================================================

/-- Embeds `interface TraktTokenResponse`. -/
structure TraktTokenResponse where
  access_token : String
  refresh_token : String
  expires_in : Nat
  created_at : Nat
  deriving DecidableEq, Repr

/-- The in-memory credentials of `TraktClient` (`this.accessToken`,
`this.refreshToken`). -/
structure TraktClientState where
  accessToken : String
  refreshToken : String
  deriving DecidableEq, Repr

/-- Requests the token-lifecycle layer issues. -/
inductive TraktReq where
  | settingsProbe (accessToken : String)
  | tokenRefreshPost (refreshToken : String)
  | secretsPut
  deriving DecidableEq, Repr

/-- Is the request a probe of the authenticated settings endpoint. -/
def isProbeReq : TraktReq → Bool
  | .settingsProbe _ => true
  | _ => false

/-- Is the request a token-refresh exchange. -/
def isRefreshReq : TraktReq → Bool
  | .tokenRefreshPost _ => true
  | _ => false

/-- Mocked network for the token lifecycle: the HTTP status of
`GET /users/settings` as a function of the bearer token used, the outcome
of `POST /oauth/token` as a function of the refresh token sent, whether
`GH_REPOSITORY` is configured, and the collapsed outcome of the
public-key fetch plus the two sealed secret PUTs. -/
structure TraktNet where
  settingsStatus : String → Nat
  tokenExchange : String → Except String TraktTokenResponse
  ghRepository : Option String
  secretsUpdate : Except String Unit

/-- JS `response.ok`: HTTP status in [200, 300). -/
def respOk (status : Nat) : Bool :=
  decide (200 ≤ status) && decide (status < 300)

/-- Embeds `updateGitHubTokenSecrets`: skipped with a warning when
`GH_REPOSITORY` is unset, otherwise the secret writes run and a failure
propagates. -/
def updateGitHubTokenSecretsM (net : TraktNet) :
    List TraktReq × Except String Unit :=
  match net.ghRepository with
  | none => ([], .ok ())
  | some _ => ([.secretsPut], net.secretsUpdate)

/-- Embeds `TraktClient.ensureValidToken`: probe `/users/settings` with
the current access token; on a 401 exchange the refresh token (a failure
there rejects), install the new pair in memory, re-probe with the new
access token (`!validateResponse.ok` rejects), then persist both tokens to
GitHub secrets (a failure there also rejects); any non-401 probe status —
success or another HTTP error alike — returns with the credentials
unchanged and performs no refresh. -/
def ensureValidToken (net : TraktNet) (st : TraktClientState) :
    List TraktReq × Except String TraktClientState :=
  let s1 := net.settingsStatus st.accessToken
  if s1 = 401 then
    match net.tokenExchange st.refreshToken with
    | .error e =>
      ([.settingsProbe st.accessToken, .tokenRefreshPost st.refreshToken],
        .error ("Failed to refresh Trakt token: " ++ e))
    | .ok tokens =>
      let st2 : TraktClientState := ⟨tokens.access_token, tokens.refresh_token⟩
      let s2 := net.settingsStatus st2.accessToken
      if respOk s2 = false then
        ([.settingsProbe st.accessToken, .tokenRefreshPost st.refreshToken,
          .settingsProbe st2.accessToken],
          .error ("Refreshed token is invalid: " ++ toString s2))
      else
        let sec := updateGitHubTokenSecretsM net
        ([.settingsProbe st.accessToken, .tokenRefreshPost st.refreshToken,
          .settingsProbe st2.accessToken] ++ sec.1,
          match sec.2 with
          | .error e => .error e
          | .ok _ => .ok st2)
  else
    ([.settingsProbe st.accessToken], .ok st)

/-- Correctness of one stored map entry with respect to the calendar
episodes processed so far: the entry answers to its own key, its episode
list is the numbers of all same-key episodes in input order, and its
episode type is a contributing type of maximal priority. -/
def calEntryOk (done : List TraktCalendarEpisode)
    (p : String × GroupedCalendarEpisode) : Prop :=
  p.1 = gKey p.2 ∧
  p.2.episodes =
    (done.filter fun e => calKey e == p.1).map (fun e => e.episode.number) ∧
  p.2.episode_type ∈
    (done.filter fun e => calKey e == p.1).map (fun e => e.episode.episode_type) ∧
  ∀ t ∈ (done.filter fun e => calKey e == p.1).map (fun e => e.episode.episode_type),
    EPISODE_TYPE_PRIORITY t ≤ EPISODE_TYPE_PRIORITY p.2.episode_type

end Ykvlv

namespace Ykvlv

-- ==========================================================================
-- Helper lemmas for C1 / C2
-- ==========================================================================

theorem flatEpisodes_closeGroup (cur : Option GroupedSeason) :
    flatEpisodes (closeGroup cur) = curEpisodes cur := by
  cases cur <;> simp [closeGroup, curEpisodes, flatEpisodes]

theorem flatEpisodes_append (a b : List GroupedItem) :
    flatEpisodes (a ++ b) = flatEpisodes a ++ flatEpisodes b := by
  induction a with
  | nil => simp [flatEpisodes]
  | cons x rest ih => cases x <;> simp [flatEpisodes, ih]

theorem flatEpisodes_groupHistoryGo (h : List TraktHistoryItem) :
    ∀ cur, flatEpisodes (groupHistoryGo cur h) = curEpisodes cur ++ inputEpisodes h := by
  induction h with
  | nil =>
    intro cur
    simp [groupHistoryGo, inputEpisodes, flatEpisodes_closeGroup]
  | cons item rest ih =>
    intro cur
    obtain ⟨w, ty, mv, shO, epO⟩ := item
    cases ty with
    | movie =>
      cases mv with
      | some m =>
        cases shO <;> cases epO <;>
          simp [groupHistoryGo, flatEpisodes_append, flatEpisodes_closeGroup,
            flatEpisodes, ih, inputEpisodes, curEpisodes]
      | none =>
        cases shO <;> cases epO <;>
          simp [groupHistoryGo, ih, inputEpisodes]
    | episode =>
      cases shO with
      | some sh =>
        cases epO with
        | some ep =>
          cases mv <;>
            cases cur with
            | none =>
              simp [groupHistoryGo, ih, inputEpisodes, curEpisodes]
            | some g =>
              by_cases hm : g.«show».ids.trakt = sh.ids.trakt ∧ g.season = ep.season <;>
                simp [groupHistoryGo, hm, ih, inputEpisodes, curEpisodes, flatEpisodes]
        | none =>
          cases mv <;> simp [groupHistoryGo, ih, inputEpisodes]
      | none =>
        cases mv <;> cases epO <;> simp [groupHistoryGo, ih, inputEpisodes]

/-- C1: concatenating the episode lists of the emitted records, in emission
order, reproduces the well-formed input episode numbers exactly, in input
order: no drops, no duplication across groups, duplicates within a group
preserved. -/
theorem groupHistory_flatEpisodes (history : List TraktHistoryItem) :
    flatEpisodes (groupHistory history) = inputEpisodes history := by
  simpa [curEpisodes] using flatEpisodes_groupHistoryGo history none

theorem groupHistoryGo_eq_normGo (h : List TraktHistoryItem) :
    ∀ cur, groupHistoryGo cur h = normGo cur (normalize h) := by
  induction h with
  | nil => intro cur; simp [groupHistoryGo, normalize, normGo]
  | cons item rest ih =>
    intro cur
    obtain ⟨w, ty, mv, shO, epO⟩ := item
    cases ty with
    | movie =>
      cases mv with
      | some m =>
        cases shO <;> cases epO <;> simp [groupHistoryGo, normalize, normGo, ih]
      | none =>
        cases shO <;> cases epO <;> simp [groupHistoryGo, normalize, ih]
    | episode =>
      cases shO with
      | some sh =>
        cases epO with
        | some ep =>
          cases mv <;>
            cases cur with
            | none => simp [groupHistoryGo, normalize, normGo, ih]
            | some g =>
              by_cases hm : g.«show».ids.trakt = sh.ids.trakt ∧ g.season = ep.season <;>
                simp [groupHistoryGo, normalize, normGo, hm, ih]
        | none => cases mv <;> simp [groupHistoryGo, normalize, ih]
      | none => cases mv <;> cases epO <;> simp [groupHistoryGo, normalize, ih]

theorem normGo_chunkSpec (evs : List NormEvent) :
    (∀ g, normGo (some g) evs =
      .season { g with
          episodes := g.episodes ++ (evs.takeWhile (sameKey g.«show» g.season)).map epNum } ::
        chunkSpec (evs.dropWhile (sameKey g.«show» g.season))) ∧
    normGo none evs = chunkSpec evs := by
  induction evs with
  | nil =>
    refine ⟨fun g => ?_, ?_⟩ <;> simp [normGo, chunkSpec, closeGroup]
  | cons e rest ih =>
    obtain ⟨ihSome, ihNone⟩ := ih
    refine ⟨fun g => ?_, ?_⟩
    · cases e with
      | movie m w =>
        simp [normGo, chunkSpec, closeGroup, sameKey, ihNone]
      | ep sh sn n w =>
        by_cases hm : g.«show».ids.trakt = sh.ids.trakt ∧ g.season = sn
        · have hkey : sameKey g.«show» g.season (.ep sh sn n w) = true := by
            simp [sameKey, hm.1, hm.2]
          simp only [normGo, if_pos hm, ihSome, List.takeWhile_cons, hkey,
            List.dropWhile_cons, if_pos rfl]
          simp [epNum]
        · have hkey : sameKey g.«show» g.season (.ep sh sn n w) = false := by
            simp only [sameKey, decide_eq_false_iff_not]
            intro ⟨h1, h2⟩
            exact hm ⟨h1.symm, h2.symm⟩
          simp [normGo, if_neg hm, ihSome, chunkSpec, List.takeWhile_cons, hkey,
            List.dropWhile_cons]
    · cases e with
      | movie m w =>
        simp [normGo, chunkSpec, closeGroup, ihNone]
      | ep sh sn n w =>
        simp [normGo, chunkSpec, ihSome]

/-- C2: `groupHistory` is exactly the spec-level maximal-adjacent-run
grouping of the well-formed events: a season record absorbs only the run of
consecutive same-show, same-season episode events following its opener, so
two occurrences of one show+season separated by an intervening well-formed
movie or different-show/season episode are never merged — the later
occurrence starts a new record. -/
theorem groupHistory_eq_chunkSpec (history : List TraktHistoryItem) :
    groupHistory history = chunkSpec (normalize history) := by
  rw [groupHistory, groupHistoryGo_eq_normGo]
  exact (normGo_chunkSpec (normalize history)).2

-- ==========================================================================
-- Helper lemmas for C6
-- ==========================================================================

theorem lookup_mem_pair {α β : Type} [BEq α] [LawfulBEq α]
    {l : List (α × β)} {k : α} {v : β}
    (h : l.lookup k = some v) : (k, v) ∈ l := by
  induction l with
  | nil => simp [List.lookup] at h
  | cons p rest ih =>
    obtain ⟨k2, v2⟩ := p
    rw [List.lookup] at h
    by_cases hk : k = k2
    · subst hk
      simp at h
      subst h
      exact List.mem_cons_self _ _
    · have : (k == k2) = false := beq_false_of_ne hk
      rw [this] at h
      exact List.mem_cons_of_mem _ (ih h)

theorem truthyNat_eq_self {o : Option Nat} (h : ∀ v, o = some v → v ≠ 0) :
    truthyNat o = o := by
  cases o with
  | none => rfl
  | some v => simp [truthyNat, h v rfl]

theorem ratings_chain2_pos (r : Ratings)
    (hse : ∀ p ∈ r.seasons, p.2 ≠ 0) (hsh : ∀ p ∈ r.shows, p.2 ≠ 0)
    (k2 : String) (showId : Nat) :
    ∀ v, (r.seasons.lookup k2).orElse (fun _ => r.shows.lookup showId) = some v →
      v ≠ 0 := by
  intro v hv
  cases hx : r.seasons.lookup k2 with
  | some w =>
    rw [hx] at hv
    simp [Option.orElse] at hv
    subst hv
    exact hse _ (lookup_mem_pair hx)
  | none =>
    rw [hx] at hv
    simp [Option.orElse] at hv
    exact hsh _ (lookup_mem_pair hv)

theorem ratings_chain3_pos (r : Ratings)
    (hep : ∀ p ∈ r.episodes, p.2 ≠ 0)
    (hse : ∀ p ∈ r.seasons, p.2 ≠ 0) (hsh : ∀ p ∈ r.shows, p.2 ≠ 0)
    (k3 k2 : String) (showId : Nat) :
    ∀ v, (r.episodes.lookup k3).orElse
        (fun _ => (r.seasons.lookup k2).orElse (fun _ => r.shows.lookup showId)) =
          some v →
      v ≠ 0 := by
  intro v hv
  cases hx : r.episodes.lookup k3 with
  | some w =>
    rw [hx] at hv
    simp [Option.orElse] at hv
    subst hv
    exact hep _ (lookup_mem_pair hx)
  | none =>
    rw [hx] at hv
    simp [Option.orElse] at hv
    exact ratings_chain2_pos r hse hsh k2 showId v hv

/-- C6: rating fallback of `enrichItems`.  With the rating maps holding
Trakt's nonzero ratings, a single-episode group resolves
episode-specific → season-specific → show-specific, a multi-episode group
resolves season-specific → show-specific and its whole output is
independent of the episode-rating map (no episode lookup is attempted);
when the applicable chain is empty the `rating` field is absent. -/
theorem enrichItems_rating_fallback (seasonsMap : SeasonsMap) (ratings : Ratings)
    (g : GroupedSeason)
    (hep : ∀ p ∈ ratings.episodes, p.2 ≠ 0)
    (hse : ∀ p ∈ ratings.seasons, p.2 ≠ 0)
    (hsh : ∀ p ∈ ratings.shows, p.2 ≠ 0) :
    (g.episodes.length = 1 →
      (enrichOne seasonsMap ratings (.season g)).rating =
        (ratings.episodes.lookup
            (ratingKey3 g.«show».ids.trakt g.season (g.episodes.headD 0))).orElse
          (fun _ => (ratings.seasons.lookup (ratingKey2 g.«show».ids.trakt g.season)).orElse
            (fun _ => ratings.shows.lookup g.«show».ids.trakt))) ∧
    (g.episodes.length ≠ 1 →
      (enrichOne seasonsMap ratings (.season g)).rating =
        (ratings.seasons.lookup (ratingKey2 g.«show».ids.trakt g.season)).orElse
          (fun _ => ratings.shows.lookup g.«show».ids.trakt) ∧
      ∀ eps2, enrichOne seasonsMap { ratings with episodes := eps2 } (.season g) =
        enrichOne seasonsMap ratings (.season g)) := by
  constructor
  · intro hlen
    simp only [enrichOne, hlen, if_pos, if_true, reduceIte]
    exact truthyNat_eq_self
      (ratings_chain3_pos ratings hep hse hsh _ _ g.«show».ids.trakt)
  · intro hlen
    constructor
    · simp only [enrichOne, hlen, if_false, reduceIte]
      exact truthyNat_eq_self
        (ratings_chain2_pos ratings hse hsh _ g.«show».ids.trakt)
    · intro eps2
      simp only [enrichOne, hlen, if_false, reduceIte]

/-- Witness for C6 at a concrete input: a single-episode group of show 1,
season 2, episode 4 with no episode-specific rating falls back to the
season rating 8. -/
theorem enrichItems_rating_fallback_witness :
    (enrichOne [] (Ratings.mk [] [(1, 6)] [("1-2", 8)] [("1-2-5", 9)])
        (.season (GroupedSeason.mk ⟨"A", 2020, ⟨1, "a"⟩, none⟩ 2 [4] "t"))).rating =
      some 8 := by
  have h := (enrichItems_rating_fallback []
    (Ratings.mk [] [(1, 6)] [("1-2", 8)] [("1-2-5", 9)])
    (GroupedSeason.mk ⟨"A", 2020, ⟨1, "a"⟩, none⟩ 2 [4] "t")
    (by decide) (by decide) (by decide)).1 (by decide)
  rw [h]
  decide

-- ==========================================================================
-- Helper lemmas for C7
-- ==========================================================================

theorem mem_lookup_isSome {α β : Type} [BEq α] [LawfulBEq α]
    {l : List (α × β)} {p : α × β} (hp : p ∈ l) :
    (l.lookup p.1).isSome := by
  induction l with
  | nil => simp at hp
  | cons q rest ih =>
    obtain ⟨k2, v2⟩ := q
    rcases List.mem_cons.mp hp with hq | hq
    · subst hq
      simp [List.lookup]
    · by_cases hkk : p.1 = k2
      · simp [List.lookup, hkk]
      · rw [List.lookup]
        have hb : (p.1 == k2) = false := beq_false_of_ne hkk
        rw [hb]
        exact ih hq

theorem lookup_none_ne {α β : Type} [BEq α] [LawfulBEq α]
    {l : List (α × β)} {k : α} (h : l.lookup k = none) :
    ∀ p ∈ l, p.1 ≠ k := by
  intro p hp hk
  have hs := mem_lookup_isSome hp
  rw [hk, h] at hs
  simp at hs

theorem calUpdate_map_fst (key : String) (ep : TraktCalendarEpisode)
    (acc : List (String × GroupedCalendarEpisode)) :
    (calUpdate key ep acc).map Prod.fst = acc.map Prod.fst := by
  induction acc with
  | nil => rfl
  | cons p rest ih =>
    obtain ⟨k, g⟩ := p
    by_cases hk : k = key <;> simp [calUpdate, hk, ih]

theorem mem_calUpdate {key : String} {ep : TraktCalendarEpisode}
    {acc : List (String × GroupedCalendarEpisode)}
    (nd : (acc.map Prod.fst).Nodup)
    {p : String × GroupedCalendarEpisode} (hp : p ∈ calUpdate key ep acc) :
    (p ∈ acc ∧ p.1 ≠ key) ∨
      ∃ g, (key, g) ∈ acc ∧ p = (key, mergeCalEp g ep) := by
  induction acc with
  | nil => simp [calUpdate] at hp
  | cons q rest ih =>
    obtain ⟨k, g⟩ := q
    simp only [List.map_cons, List.nodup_cons] at nd
    by_cases hk : k = key
    · subst hk
      rw [calUpdate, if_pos rfl] at hp
      rcases List.mem_cons.mp hp with hq | hq
      · exact Or.inr ⟨g, List.mem_cons_self _ _, hq⟩
      · refine Or.inl ⟨List.mem_cons_of_mem _ hq, ?_⟩
        intro hpk
        exact nd.1 (hpk ▸ List.mem_map_of_mem Prod.fst hq)
    · rw [calUpdate, if_neg hk] at hp
      rcases List.mem_cons.mp hp with hq | hq
      · subst hq
        exact Or.inl ⟨List.mem_cons_self _ _, hk⟩
      · rcases ih nd.2 hq with ⟨h1, h2⟩ | ⟨g2, hg2, hpe⟩
        · exact Or.inl ⟨List.mem_cons_of_mem _ h1, h2⟩
        · exact Or.inr ⟨g2, List.mem_cons_of_mem _ hg2, hpe⟩

theorem mergeCalEp_priority_le (g : GroupedCalendarEpisode)
    (ep : TraktCalendarEpisode) :
    EPISODE_TYPE_PRIORITY g.episode_type ≤
        EPISODE_TYPE_PRIORITY (mergeCalEp g ep).episode_type ∧
      EPISODE_TYPE_PRIORITY ep.episode.episode_type ≤
        EPISODE_TYPE_PRIORITY (mergeCalEp g ep).episode_type := by
  rw [mergeCalEp]
  by_cases h : EPISODE_TYPE_PRIORITY ep.episode.episode_type >
      EPISODE_TYPE_PRIORITY g.episode_type
  · simp only [if_pos h]
    exact ⟨Nat.le_of_lt h, Nat.le_refl _⟩
  · simp only [if_neg h]
    exact ⟨Nat.le_refl _, Nat.le_of_not_lt h⟩

theorem groupCalendarGo_inv (eps : List TraktCalendarEpisode) :
    ∀ acc done,
      (acc.map Prod.fst).Nodup →
      (∀ p ∈ acc, calEntryOk done p) →
      (∀ e ∈ done, calKey e ∈ acc.map Prod.fst) →
      ∀ p ∈ groupCalendarGo acc eps, calEntryOk (done ++ eps) p := by
  induction eps with
  | nil =>
    intro acc done _ hok _ p hp
    simpa using hok p (by simpa [groupCalendarGo] using hp)
  | cons ep rest ih =>
    intro acc done nd hok hkeys p hp
    rw [groupCalendarGo] at hp
    have hassoc : done ++ ep :: rest = (done ++ [ep]) ++ rest := by simp
    rw [hassoc]
    cases heq : acc.lookup (calKey ep) with
    | some g0 =>
      rw [heq] at hp
      refine ih (calUpdate (calKey ep) ep acc) (done ++ [ep]) ?_ ?_ ?_ p hp
      · rw [calUpdate_map_fst]; exact nd
      · intro q hq
        rcases mem_calUpdate nd hq with ⟨hmem, hne⟩ | ⟨g1, hg1, rfl⟩
        · obtain ⟨hk, h1, h2, h3⟩ := hok q hmem
          have hfe : (calKey ep == q.1) = false :=
            beq_false_of_ne (fun hcc => hne hcc.symm)
          refine ⟨hk, ?_, ?_, ?_⟩ <;>
            simp only [List.filter_append, List.filter_cons, List.filter_nil,
              hfe, Bool.false_eq_true, if_false, List.append_nil] <;>
            assumption
        · obtain ⟨hk, h1, h2, h3⟩ := hok (calKey ep, g1) hg1
          have hte : (calKey ep == calKey ep) = true := beq_self_eq_true _
          have hfilter :
              ((done ++ [ep]).filter fun e => calKey e == calKey ep) =
                (done.filter fun e => calKey e == calKey ep) ++ [ep] := by
            simp [List.filter_append, hte]
          have hgk : gKey (mergeCalEp g1 ep) = gKey g1 := rfl
          refine ⟨by simpa [hgk] using hk, ?_, ?_, ?_⟩
          · simp only [hfilter, List.map_append, mergeCalEp]
            simp only at h1
            rw [← h1]
            simp
          · simp only [hfilter, List.map_append]
            rw [mergeCalEp]
            by_cases hgt : EPISODE_TYPE_PRIORITY ep.episode.episode_type >
                EPISODE_TYPE_PRIORITY g1.episode_type
            · simp [if_pos hgt]
            · simp only [if_neg hgt]
              exact List.mem_append_left _ (by simpa using h2)
          · intro t ht
            rw [hfilter, List.map_append] at ht
            rcases List.mem_append.mp ht with hto | htn
            · exact Nat.le_trans (h3 t (by simpa using hto))
                (mergeCalEp_priority_le g1 ep).1
            · simp at htn
              subst htn
              exact (mergeCalEp_priority_le g1 ep).2
      · intro e he
        rw [calUpdate_map_fst]
        rcases List.mem_append.mp he with hd | hn
        · exact hkeys e hd
        · simp at hn
          subst hn
          exact List.mem_map_of_mem Prod.fst (lookup_mem_pair heq)
    | none =>
      rw [heq] at hp
      have hnotin : calKey ep ∉ acc.map Prod.fst := by
        intro hmem
        obtain ⟨q, hq, hq1⟩ := List.mem_map.mp hmem
        exact lookup_none_ne heq q hq hq1
      refine ih _ (done ++ [ep]) ?_ ?_ ?_ p hp
      · rw [List.map_append]
        exact List.Nodup.append nd (List.nodup_singleton _)
          (fun a ha hb => by simp at hb; subst hb; exact hnotin ha)
      · intro q hq
        rcases List.mem_append.mp hq with hmem | hnewq
        · obtain ⟨hk, h1, h2, h3⟩ := hok q hmem
          have hfe : (calKey ep == q.1) = false := by
            refine beq_false_of_ne (fun hcc => ?_)
            exact hnotin (hcc ▸ List.mem_map_of_mem Prod.fst hmem)
          refine ⟨hk, ?_, ?_, ?_⟩ <;>
            simp only [List.filter_append, List.filter_cons, List.filter_nil,
              hfe, Bool.false_eq_true, if_false, List.append_nil] <;>
            assumption
        · simp only [List.mem_singleton] at hnewq
          subst hnewq
          have hdone : (done.filter fun e => calKey e == calKey ep) = [] := by
            rw [List.filter_eq_nil_iff]
            intro e he hbe
            exact hnotin ((eq_of_beq hbe) ▸ hkeys e he)
          have hte : (calKey ep == calKey ep) = true := beq_self_eq_true _
          refine ⟨rfl, ?_, ?_, ?_⟩
          · rw [List.filter_append, hdone]
            simp [hte]
          · rw [List.filter_append, hdone]
            simp [hte]
          · rw [List.filter_append, hdone]
            simp [hte]
      · intro e he
        rw [List.map_append]
        rcases List.mem_append.mp he with hd | hn
        · exact List.mem_append_left _ (hkeys e hd)
        · simp at hn
          subst hn
          simp

/-- C7: every record produced by `groupCalendarEpisodes` collects, in input
order, the episode numbers of exactly the calendar episodes sharing its
(air-date-day, show slug, season) key, and stores a contributing episode
type of maximal priority under
series_finale > season_finale > mid_season_finale > series_premiere >
season_premiere > mid_season_premiere > standard. -/
theorem groupCalendarEpisodes_spec (episodes : List TraktCalendarEpisode) :
    ∀ g ∈ groupCalendarEpisodes episodes,
      g.episodes =
        (episodes.filter fun e => calKey e == gKey g).map
          (fun e => e.episode.number) ∧
      g.episode_type ∈
        (episodes.filter fun e => calKey e == gKey g).map
          (fun e => e.episode.episode_type) ∧
      ∀ t ∈ (episodes.filter fun e => calKey e == gKey g).map
          (fun e => e.episode.episode_type),
        EPISODE_TYPE_PRIORITY t ≤ EPISODE_TYPE_PRIORITY g.episode_type := by
  intro g hg
  obtain ⟨p, hp, rfl⟩ := List.mem_map.mp hg
  have h := groupCalendarGo_inv episodes [] []
    (by simp) (by intro p hp; simp at hp) (by intro e he; simp at he) p hp
  obtain ⟨hkey, h1, h2, h3⟩ := h
  rw [hkey] at h1 h2 h3
  simp only [List.nil_append] at h1 h2 h3
  exact ⟨h1, h2, h3⟩

/-- Witness for C7: a standard episode and a season-finale episode of the
same show, season and air day merge into one record whose episode list is
`[1, 2]` and whose stored type is `season_finale`. -/
theorem groupCalendarEpisodes_spec_witness :
    (GroupedCalendarEpisode.mk ⟨"A", 2020, ⟨1, "a"⟩, none⟩ 3 "2026-01-01"
        [1, 2] .season_finale) ∈
      groupCalendarEpisodes
        [⟨"2026-01-01T20:00:00.000Z", ⟨3, 1, .standard⟩, ⟨"A", 2020, ⟨1, "a"⟩, none⟩⟩,
         ⟨"2026-01-01T21:00:00.000Z", ⟨3, 2, .season_finale⟩, ⟨"A", 2020, ⟨1, "a"⟩, none⟩⟩] ∧
    (GroupedCalendarEpisode.mk ⟨"A", 2020, ⟨1, "a"⟩, none⟩ 3 "2026-01-01"
        [1, 2] .season_finale).episodes =
      ([⟨"2026-01-01T20:00:00.000Z", ⟨3, 1, .standard⟩, ⟨"A", 2020, ⟨1, "a"⟩, none⟩⟩,
        (⟨"2026-01-01T21:00:00.000Z", ⟨3, 2, .season_finale⟩,
          ⟨"A", 2020, ⟨1, "a"⟩, none⟩⟩ : TraktCalendarEpisode)].filter
            fun e => calKey e == gKey (GroupedCalendarEpisode.mk
              ⟨"A", 2020, ⟨1, "a"⟩, none⟩ 3 "2026-01-01" [1, 2] .season_finale)).map
        (fun e => e.episode.number) :=
  ⟨by decide,
    (groupCalendarEpisodes_spec
      [⟨"2026-01-01T20:00:00.000Z", ⟨3, 1, .standard⟩, ⟨"A", 2020, ⟨1, "a"⟩, none⟩⟩,
       ⟨"2026-01-01T21:00:00.000Z", ⟨3, 2, .season_finale⟩, ⟨"A", 2020, ⟨1, "a"⟩, none⟩⟩]
      (GroupedCalendarEpisode.mk ⟨"A", 2020, ⟨1, "a"⟩, none⟩ 3 "2026-01-01"
        [1, 2] .season_finale) (by decide)).1⟩

-- ==========================================================================
-- Helper lemmas for C5
-- ==========================================================================

theorem addTrackGo_conflict_run (beh : Nat → AttemptBeh) (retries : Nat)
    (msgs : Nat → String) :
    ∀ N attempt n, N < n → attempt + n = retries →
      (∀ k, k < N → beh (attempt + k) = .postThrows (.api (msgs (attempt + k))) ∧
        isRevisionConflictMsg (msgs (attempt + k)) = true) →
      beh (attempt + N) = .ok →
      addTrackGo beh (fun _ => false) retries attempt n =
        (Except.ok (), ⟨N + 1, N + 1,
          (List.range N).map (fun k => backoffDelay (attempt + k))⟩) := by
  intro N
  induction N with
  | zero =>
    intro attempt n hN hfuel hconf hok
    obtain ⟨n2, rfl⟩ : ∃ n2, n = n2 + 1 := ⟨n - 1, by omega⟩
    rw [Nat.add_zero] at hok
    simp [addTrackGo, hok]
  | succ N ih =>
    intro attempt n hN hfuel hconf hok
    obtain ⟨n2, rfl⟩ : ∃ n2, n = n2 + 1 := ⟨n - 1, by omega⟩
    have h0 := hconf 0 (Nat.succ_pos N)
    rw [Nat.add_zero] at h0
    have hne : ¬(attempt = retries - 1) := by omega
    have hrec := ih (attempt + 1) n2 (by omega) (by omega)
      (fun k hk => by
        have h := hconf (k + 1) (by omega)
        have harith : attempt + (k + 1) = attempt + 1 + k := by omega
        rw [harith] at h
        exact h)
      (by
        have harith : attempt + (N + 1) = attempt + 1 + N := by omega
        rw [harith] at hok
        exact hok)
    have hlist : (List.range (N + 1)).map (fun k => backoffDelay (attempt + k)) =
        backoffDelay attempt ::
          (List.range N).map (fun k => backoffDelay (attempt + 1 + k)) := by
      rw [List.range_succ_eq_map, List.map_cons, List.map_map]
      refine congrArg₂ _ (congrArg backoffDelay (by omega)) ?_
      refine List.map_congr_left (fun k _ => ?_)
      exact congrArg backoffDelay (by omega)
    simp [addTrackGo, h0.1, h0.2, hne, hrec, hlist, Nat.add_comm]

/-- C5: the API-level `addTrackToPlaylist` retry behaviour.  First: given
`N` consecutive revision-conflict diff submissions followed by a success,
with `N` below the retry ceiling, the call succeeds after `N + 1` revision
fetches and `N + 1` diff submissions, sleeping `backoffDelay 0, ...,
backoffDelay (N-1)` in between.  Second: a non-conflict, non-abort error on
the first attempt propagates immediately, after exactly one revision fetch
and one diff submission.  Third and fourth: the backoff delay sequence is
non-decreasing and capped at `RETRY_MAX_DELAY_MS`. -/
theorem apiAddTrackToPlaylist_conflict_retry :
    (∀ retries N (beh : Nat → AttemptBeh) (msgs : Nat → String),
      N < retries →
      (∀ k, k < N → beh k = .postThrows (.api (msgs k)) ∧
        isRevisionConflictMsg (msgs k) = true) →
      beh N = .ok →
      apiAddTrackToPlaylist beh (fun _ => false) retries =
        (Except.ok (), ⟨N + 1, N + 1, (List.range N).map backoffDelay⟩)) ∧
    (∀ retries (beh : Nat → AttemptBeh) (msg : String), 0 < retries →
      beh 0 = .postThrows (.api msg) → isRevisionConflictMsg msg = false →
      apiAddTrackToPlaylist beh (fun _ => false) retries =
        (Except.error (NetErr.api msg), ⟨1, 1, []⟩)) ∧
    (∀ i j, i ≤ j → backoffDelay i ≤ backoffDelay j) ∧
    (∀ i, backoffDelay i ≤ RETRY_MAX_DELAY_MS) := by
  refine ⟨?_, ?_, ?_, ?_⟩
  · intro retries N beh msgs hN hconf hok
    have h := addTrackGo_conflict_run beh retries msgs N 0 retries hN
      (by omega)
      (fun k hk => by simpa using hconf k hk)
      (by simpa using hok)
    simpa [apiAddTrackToPlaylist] using h
  · intro retries beh msg hret h0 hnc
    obtain ⟨n2, rfl⟩ : ∃ n2, retries = n2 + 1 := ⟨retries - 1, by omega⟩
    simp [apiAddTrackToPlaylist, addTrackGo, h0, hnc]
  · intro i j hij
    exact min_le_min
      (Nat.mul_le_mul_left _ (Nat.pow_le_pow_right (by norm_num) hij))
      (Nat.le_refl _)
  · intro i
    exact min_le_right _ _

/-- Witness for C5: two conflicting submissions then a success, with the
ceiling at its configured value 3: the call succeeds with 3 revision
fetches, 3 submissions and delays 100ms then 200ms. -/
theorem apiAddTrackToPlaylist_conflict_retry_witness :
    apiAddTrackToPlaylist
        (fun k => if k < 2 then .postThrows (.api "409 revision conflict") else .ok)
        (fun _ => false) MAX_REVISION_RETRIES =
      (Except.ok (), ⟨3, 3, [100, 200]⟩) := by
  have h := apiAddTrackToPlaylist_conflict_retry.1 MAX_REVISION_RETRIES 2
    (fun k => if k < 2 then .postThrows (.api "409 revision conflict") else .ok)
    (fun _ => "409 revision conflict")
    (by decide)
    (fun k hk => ⟨by simp [hk],
      (by decide : isRevisionConflictMsg "409 revision conflict" = true)⟩)
    (by decide)
  rw [h]
  rfl

-- ==========================================================================
-- Helper lemmas for C3 / C10
-- ==========================================================================

theorem lookup_append_of_none {α β : Type} [BEq α]
    {l1 : List (α × β)} (l2 : List (α × β)) {k : α}
    (h : l1.lookup k = none) : (l1 ++ l2).lookup k = l2.lookup k := by
  induction l1 with
  | nil => simp
  | cons p rest ih =>
    obtain ⟨k2, v2⟩ := p
    rw [List.lookup] at h
    rw [List.cons_append, List.lookup]
    cases hbe : (k == k2) with
    | true => rw [hbe] at h; simp at h
    | false => rw [hbe] at h; exact ih h

/-- C3: in-flight deduplication for the same track and playlist.  A first
`addTrackToPlaylist` call with no in-flight entry returns the fresh
promise and issues exactly one network mutation; a second call for the
same track and playlist issued before the first resolves returns the very
same promise (hence resolves to the identical outcome value) and changes
nothing — in particular no further network call is issued.  Likewise for
`unlikeTrack` on the same track. -/
theorem addTrackToPlaylist_inflight_dedup (s0 : HookState) (T : String)
    (P : Nat) (hready : s0.apiReady = true) :
    (s0.inFlightAdds.lookup T = none →
      (startAddTrackToPlaylist s0 T P).1 = .promise s0.nextPromiseId ∧
      (startAddTrackToPlaylist s0 T P).2.netLog = s0.netLog ++ [.addTrack T P] ∧
      (startAddTrackToPlaylist (startAddTrackToPlaylist s0 T P).2 T P).1 =
        .promise s0.nextPromiseId ∧
      (startAddTrackToPlaylist (startAddTrackToPlaylist s0 T P).2 T P).2 =
        (startAddTrackToPlaylist s0 T P).2) ∧
    (s0.inFlightUnlikes.lookup T = none →
      (startUnlikeTrack s0 T).1 = .promise s0.nextPromiseId ∧
      (startUnlikeTrack s0 T).2.netLog = s0.netLog ++ [.unlike T] ∧
      (startUnlikeTrack (startUnlikeTrack s0 T).2 T).1 =
        .promise s0.nextPromiseId ∧
      (startUnlikeTrack (startUnlikeTrack s0 T).2 T).2 =
        (startUnlikeTrack s0 T).2) := by
  constructor
  · intro hnone
    have hl : (s0.inFlightAdds ++ [(T, s0.nextPromiseId)]).lookup T =
        some s0.nextPromiseId := by
      rw [lookup_append_of_none _ hnone]
      simp [List.lookup]
    refine ⟨?_, ?_, ?_, ?_⟩ <;>
      simp [startAddTrackToPlaylist, hready, hnone, hl]
  · intro hnone
    have hl : (s0.inFlightUnlikes ++ [(T, s0.nextPromiseId)]).lookup T =
        some s0.nextPromiseId := by
      rw [lookup_append_of_none _ hnone]
      simp [List.lookup]
    refine ⟨?_, ?_, ?_, ?_⟩ <;>
      simp [startUnlikeTrack, hready, hnone, hl]

/-- Witness for C3: from an idle ready session, two immediate
`addTrackToPlaylist` calls for track "t" and playlist 5 both receive
promise 0, and the network log of the two calls holds exactly one
mutation. -/
theorem addTrackToPlaylist_inflight_dedup_witness :
    (startAddTrackToPlaylist
        (startAddTrackToPlaylist ⟨true, [], [], [], [], [], [], 0⟩ "t" 5).2
        "t" 5).1 = .promise 0 ∧
    (startAddTrackToPlaylist
        (startAddTrackToPlaylist ⟨true, [], [], [], [], [], [], 0⟩ "t" 5).2
        "t" 5).2.netLog = [.addTrack "t" 5] := by
  have h := (addTrackToPlaylist_inflight_dedup ⟨true, [], [], [], [], [], [], 0⟩
    "t" 5 (by decide)).1 (by decide)
  refine ⟨h.2.2.1, ?_⟩
  rw [h.2.2.2]
  decide

/-- C10: in-flight deduplication keys by track id alone.  While an add of
track `T` to playlist `P1` is in flight, a call to add the same `T` to a
different playlist `P2` returns the `P1` call's promise (hence its
outcome), changes no state, and issues no network request: the log still
holds only the mutation targeting `P1`. -/
theorem addTrackToPlaylist_dedup_ignores_playlist (s0 : HookState)
    (T : String) (P1 P2 : Nat) (hready : s0.apiReady = true)
    (hnone : s0.inFlightAdds.lookup T = none) :
    (startAddTrackToPlaylist (startAddTrackToPlaylist s0 T P1).2 T P2).1 =
      .promise s0.nextPromiseId ∧
    (startAddTrackToPlaylist (startAddTrackToPlaylist s0 T P1).2 T P2).2 =
      (startAddTrackToPlaylist s0 T P1).2 ∧
    (startAddTrackToPlaylist s0 T P1).2.netLog = s0.netLog ++ [.addTrack T P1] := by
  have hl : (s0.inFlightAdds ++ [(T, s0.nextPromiseId)]).lookup T =
      some s0.nextPromiseId := by
    rw [lookup_append_of_none _ hnone]
    simp [List.lookup]
  refine ⟨?_, ?_, ?_⟩ <;>
    simp [startAddTrackToPlaylist, hready, hnone, hl]

/-- Witness for C10: adding track "t" to playlist 9 while its add to
playlist 5 is in flight returns the playlist-5 call's promise and the log
holds no request targeting playlist 9. -/
theorem addTrackToPlaylist_dedup_ignores_playlist_witness :
    (startAddTrackToPlaylist
        (startAddTrackToPlaylist ⟨true, [], [], [], [], [], [], 0⟩ "t" 5).2
        "t" 9).1 = .promise 0 ∧
    (startAddTrackToPlaylist
        (startAddTrackToPlaylist ⟨true, [], [], [], [], [], [], 0⟩ "t" 5).2
        "t" 9).2.netLog = [.addTrack "t" 5] := by
  have h := addTrackToPlaylist_dedup_ignores_playlist
    ⟨true, [], [], [], [], [], [], 0⟩ "t" 5 9 (by decide) (by decide)
  refine ⟨h.1, ?_⟩
  rw [h.2.1]
  decide

/-- C9: an aborted network call resolves as a void outcome: the
distinguished cancelled result is returned, no rollback or commit
callback fires (so no user-visible error state results), and the
`finally` cleanup still clears the pending marker, the abort controller
and the in-flight entry; the unmount effect itself clears every
controller and both pending sets. -/
theorem mutation_abort_is_void (s : HookState) (T : String) (P : Nat)
    (m r : Bool) :
    (finishAddTrackToPlaylist s T P .aborted m r).events = [] ∧
    (finishAddTrackToPlaylist s T P .aborted m r).result =
      ⟨false, some "Request cancelled"⟩ ∧
    (finishAddTrackToPlaylist s T P .aborted m r).state.pendingAdds =
      s.pendingAdds.filter (fun t => t ≠ T) ∧
    (finishAddTrackToPlaylist s T P .aborted m r).state.inFlightAdds =
      s.inFlightAdds.filter (fun p => p.1 ≠ T) ∧
    (finishAddTrackToPlaylist s T P .aborted m r).state.abortControllers =
      s.abortControllers.filter (fun k => k ≠ addMutationKey T P) ∧
    (finishUnlikeTrack s T .aborted m r).events = [] ∧
    (finishUnlikeTrack s T .aborted m r).result =
      ⟨false, some "Request cancelled"⟩ ∧
    (finishUnlikeTrack s T .aborted m r).state.pendingUnlikes =
      s.pendingUnlikes.filter (fun t => t ≠ T) ∧
    (finishUnlikeTrack s T .aborted m r).state.inFlightUnlikes =
      s.inFlightUnlikes.filter (fun p => p.1 ≠ T) ∧
    (unmountCleanup s).abortControllers = [] ∧
    (unmountCleanup s).pendingAdds = [] ∧
    (unmountCleanup s).pendingUnlikes = [] := by
  refine ⟨?_, ?_, ?_, ?_, ?_, ?_, ?_, ?_, ?_, ?_, ?_, ?_⟩ <;>
    simp [finishAddTrackToPlaylist, finishUnlikeTrack, unmountCleanup]

-- ==========================================================================
-- Helper lemmas for C4
-- ==========================================================================

theorem lookup_mapSet (l : List (Nat × List String)) (k : Nat) (v : List String) :
    ∀ k2, (mapSet k v l).lookup k2 = if k2 = k then some v else l.lookup k2 := by
  induction l with
  | nil =>
    intro k2
    by_cases hk : k2 = k <;> simp [mapSet, List.lookup, hk, beq_false_of_ne]
  | cons p rest ih =>
    intro k2
    obtain ⟨k3, v3⟩ := p
    by_cases h3 : k3 = k
    · subst h3
      by_cases hk : k2 = k3 <;>
        simp [mapSet, List.lookup, hk, beq_false_of_ne]
    · rw [mapSet, if_neg h3]
      by_cases hk : k2 = k3
      · subst hk
        have : ¬(k2 = k) := fun hc => h3 hc
        simp [List.lookup, this]
      · simp [List.lookup, beq_false_of_ne hk, ih k2]

theorem setDelete_of_not_contains {l : List String} {x : String}
    (h : l.contains x = false) : setDelete x l = l := by
  have hx : x ∉ l := by simpa using h
  rw [setDelete, List.filter_eq_self]
  intro a ha
  simp only [ne_eq, decide_eq_true_eq]
  exact fun hax => hx (hax ▸ ha)

theorem setDelete_not_contains (l : List String) (x : String) :
    (setDelete x l).contains x = false := by
  have : x ∉ setDelete x l := by
    intro hmem
    rw [setDelete, List.mem_filter] at hmem
    simp at hmem
  simpa using this

theorem find?_map_bump (l : List PlaylistInfo) (P : Nat) (f : Nat → Nat) :
    ((l.map fun p => if p.kind == P then { p with trackCount := f p.trackCount }
        else p).find? fun p => p.kind == P) =
      (l.find? fun p => p.kind == P).map
        (fun p => { p with trackCount := f p.trackCount }) := by
  induction l with
  | nil => rfl
  | cons p rest ih =>
    rw [List.map_cons]
    by_cases hp : p.kind = P
    · have hb : (p.kind == P) = true := by simp [hp]
      rw [if_pos hb]
      rw [List.find?_cons_of_pos (p := fun (q : PlaylistInfo) => q.kind == P)
        (a := { p with trackCount := f p.trackCount }) _ hb]
      rw [List.find?_cons_of_pos (p := fun (q : PlaylistInfo) => q.kind == P)
        (a := p) _ hb]
      rfl
    · have hb : (p.kind == P) = false := beq_false_of_ne hp
      rw [if_neg (by simp [hb])]
      rw [List.find?_cons_of_neg (p := fun (q : PlaylistInfo) => q.kind == P)
        (a := p) _ (by simp [hb])]
      rw [List.find?_cons_of_neg (p := fun (q : PlaylistInfo) => q.kind == P)
        (a := p) _ (by simp [hb])]
      exact ih

theorem find?_map_bump_ne (l : List PlaylistInfo) (P k : Nat) (hk : k ≠ P)
    (f : Nat → Nat) :
    ((l.map fun p => if p.kind == P then { p with trackCount := f p.trackCount }
        else p).find? fun p => p.kind == k) =
      l.find? fun p => p.kind == k := by
  induction l with
  | nil => rfl
  | cons p rest ih =>
    rw [List.map_cons]
    by_cases hp : p.kind = P
    · have hbk : (p.kind == k) = false :=
        beq_false_of_ne (fun h => hk (h.symm.trans hp))
      have hb : (p.kind == P) = true := by simp [hp]
      rw [if_pos hb]
      rw [List.find?_cons_of_neg (p := fun (q : PlaylistInfo) => q.kind == k)
        (a := { p with trackCount := f p.trackCount }) _ (by simp [hbk])]
      rw [List.find?_cons_of_neg (p := fun (q : PlaylistInfo) => q.kind == k)
        (a := p) _ (by simp [hbk])]
      exact ih
    · have hb : (p.kind == P) = false := beq_false_of_ne hp
      rw [if_neg (by simp [hb])]
      by_cases hpk : p.kind = k
      · have hbk : (p.kind == k) = true := by simp [hpk]
        rw [List.find?_cons_of_pos (p := fun (q : PlaylistInfo) => q.kind == k)
          (a := p) _ hbk]
        rw [List.find?_cons_of_pos (p := fun (q : PlaylistInfo) => q.kind == k)
          (a := p) _ hbk]
      · have hbk : (p.kind == k) = false := beq_false_of_ne hpk
        rw [List.find?_cons_of_neg (p := fun (q : PlaylistInfo) => q.kind == k)
          (a := p) _ (by simp [hbk])]
        rw [List.find?_cons_of_neg (p := fun (q : PlaylistInfo) => q.kind == k)
          (a := p) _ (by simp [hbk])]
        exact ih

/-- C4 counterexample: the claim "state after the rollback equals the
state before the attempt" fails when the track was already a member of the
target playlist before the failed add.  Before the attempt, playlist 7
contains "t1" with trackCount 5; the failure path (mounted, not
refreshing) invokes exactly the rollback callback, after which "t1" has
been evicted and the counter decremented to 4. -/
theorem addTrack_failure_rollback_counterexample :
    (finishAddTrackToPlaylist ⟨true, [], [], [], [], [], [], 0⟩ "t1" 7
        (.failure "HTTP 500") true false).events = [.addRollback "t1" 7] ∧
    memberOf (⟨[⟨7, "P", 5⟩], [], [(7, ["t1"])], false⟩ : PlaylistsLocalState)
      7 "t1" = true ∧
    countOf (⟨[⟨7, "P", 5⟩], [], [(7, ["t1"])], false⟩ : PlaylistsLocalState)
      7 = some 5 ∧
    memberOf
      (applyEvents (⟨[⟨7, "P", 5⟩], [], [(7, ["t1"])], false⟩ : PlaylistsLocalState)
        (finishAddTrackToPlaylist ⟨true, [], [], [], [], [], [], 0⟩ "t1" 7
          (.failure "HTTP 500") true false).events)
      7 "t1" = false ∧
    countOf
      (applyEvents (⟨[⟨7, "P", 5⟩], [], [(7, ["t1"])], false⟩ : PlaylistsLocalState)
        (finishAddTrackToPlaylist ⟨true, [], [], [], [], [], [], 0⟩ "t1" 7
          (.failure "HTTP 500") true false).events)
      7 = some 4 := by
  decide

/-- C4 amended: a non-abort add failure with no refresh in progress
invokes exactly the rollback callback, and the rollback restores the
pre-attempt local state when the track was not already a member of the
target playlist (membership, counters and liked list all unchanged); when
the track was already a member, the rollback instead removes it and
decrements the playlist's counter exactly once (never twice), leaving
every other playlist untouched. -/
theorem addTrack_failure_rollback_amended (hk : HookState)
    (s0 : PlaylistsLocalState) (T : String) (P : Nat) (msg : String) :
    (finishAddTrackToPlaylist hk T P (.failure msg) true false).events =
      [.addRollback T P] ∧
    applyEvents s0 (finishAddTrackToPlaylist hk T P (.failure msg) true false).events =
      onTrackAddRollback s0 T P ∧
    (memberOf s0 P T = false →
      (∀ k t, memberOf (onTrackAddRollback s0 T P) k t = memberOf s0 k t) ∧
      (∀ k, countOf (onTrackAddRollback s0 T P) k = countOf s0 k) ∧
      (onTrackAddRollback s0 T P).likedTrackIds = s0.likedTrackIds) ∧
    (memberOf s0 P T = true →
      (s0.playlists.any fun p => p.kind == P) = true →
      memberOf (onTrackAddRollback s0 T P) P T = false ∧
      countOf (onTrackAddRollback s0 T P) P = (countOf s0 P).map (fun c => c - 1) ∧
      (∀ k, k ≠ P → countOf (onTrackAddRollback s0 T P) k = countOf s0 k) ∧
      (∀ k t, k ≠ P → memberOf (onTrackAddRollback s0 T P) k t = memberOf s0 k t)) := by
  refine ⟨rfl, rfl, ?_, ?_⟩
  · intro hmem
    by_cases hex : (s0.playlists.any fun p => p.kind == P) = false
    · rw [onTrackAddRollback, if_pos hex]
      exact ⟨fun k t => rfl, fun k => rfl, rfl⟩
    · have hstate : onTrackAddRollback s0 T P =
          { s0 with
            playlistTracks :=
              mapSet P ((s0.playlistTracks.lookup P).getD []) s0.playlistTracks } := by
        rw [onTrackAddRollback, if_neg hex]
        rw [memberOf] at hmem
        simp only [hmem, Bool.false_eq_true, if_neg, if_false]
        rw [setDelete_of_not_contains hmem]
      rw [hstate]
      refine ⟨?_, fun k => rfl, rfl⟩
      intro k t
      rw [memberOf, memberOf]
      simp only
      rw [lookup_mapSet]
      by_cases hkP : k = P
      · subst hkP
        rw [if_pos rfl]
        rfl
      · rw [if_neg hkP]
  · intro hmem hex
    have hstate : onTrackAddRollback s0 T P =
        { s0 with
          playlistTracks :=
            mapSet P (setDelete T ((s0.playlistTracks.lookup P).getD []))
              s0.playlistTracks
          playlists := s0.playlists.map fun p =>
            if p.kind == P then { p with trackCount := p.trackCount - 1 }
            else p } := by
      rw [onTrackAddRollback, if_neg (by simp [hex])]
      rw [memberOf] at hmem
      simp only [hmem, if_true, reduceIte]
    rw [hstate]
    refine ⟨?_, ?_, ?_, ?_⟩
    · rw [memberOf]
      simp only
      rw [lookup_mapSet, if_pos rfl]
      simpa using setDelete_not_contains _ T
    · rw [countOf, countOf]
      simp only
      rw [find?_map_bump s0.playlists P (fun c => c - 1)]
      cases s0.playlists.find? (fun p => p.kind == P) <;> rfl
    · intro k hkP
      rw [countOf, countOf]
      simp only
      rw [find?_map_bump_ne s0.playlists P k hkP (fun c => c - 1)]
    · intro k t hkP
      rw [memberOf, memberOf]
      simp only
      rw [lookup_mapSet, if_neg hkP]

/-- Witness for the amended C4, in the already-a-member case: rolling back
the failed re-add of "t1" to playlist 7 (which held it among 5 tracks)
leaves "t1" out of the playlist with the counter at 4. -/
theorem addTrack_failure_rollback_amended_witness :
    memberOf (onTrackAddRollback
        (⟨[⟨7, "P", 5⟩], [], [(7, ["t1"])], false⟩ : PlaylistsLocalState)
        "t1" 7) 7 "t1" = false ∧
    countOf (onTrackAddRollback
        (⟨[⟨7, "P", 5⟩], [], [(7, ["t1"])], false⟩ : PlaylistsLocalState)
        "t1" 7) 7 = some 4 := by
  have h := (addTrack_failure_rollback_amended ⟨true, [], [], [], [], [], [], 0⟩
    ⟨[⟨7, "P", 5⟩], [], [(7, ["t1"])], false⟩ "t1" 7 "HTTP 500").2.2.2
    (by decide) (by decide)
  refine ⟨h.1, ?_⟩
  rw [h.2.1]
  decide

/-- C8 counterexample: the claim "the run fails fatally only if that
re-probe also fails" is false.  Under a network where the old token probes
401, the refresh exchange succeeds, the re-probe with the new token
returns 200, but persisting the refreshed tokens to the secret store
fails, `ensureValidToken` rejects — the run fails fatally although the
re-probe succeeded. -/
theorem ensureValidToken_counterexample :
    (ensureValidToken
        ⟨fun t => if t = "tok0" then 401 else 200,
         fun _ => .ok ⟨"tok1", "ref1", 3600, 0⟩,
         some "owner/repo", .error "secrets store down"⟩
        ⟨"tok0", "ref0"⟩).2 = .error "secrets store down" ∧
    (if ("tok0" : String) = "tok0" then 401 else 200) = 401 ∧
    respOk (if ("tok1" : String) = "tok0" then 401 else 200) = true := by
  refine ⟨rfl, by decide, by decide⟩

/-- C8 amended: a 401 on the authenticated probe triggers exactly one
token refresh exchange and, when the exchange succeeds, exactly one
re-probe with the new access token; the run fails fatally when the
exchange fails, when the re-probe fails, or when persisting the refreshed
tokens to the secret store fails, and otherwise proceeds with the new
credentials installed; no other retry happens at this layer, and a
non-401 probe performs no refresh at all. -/
theorem ensureValidToken_refresh_behaviour (net : TraktNet)
    (st : TraktClientState) :
    (net.settingsStatus st.accessToken = 401 →
      ((ensureValidToken net st).1.filter isRefreshReq).length = 1 ∧
      (∀ e, net.tokenExchange st.refreshToken = .error e →
        ensureValidToken net st =
          ([.settingsProbe st.accessToken, .tokenRefreshPost st.refreshToken],
            .error ("Failed to refresh Trakt token: " ++ e))) ∧
      (∀ tokens, net.tokenExchange st.refreshToken = .ok tokens →
        ((ensureValidToken net st).1.filter isProbeReq).length = 2 ∧
        (respOk (net.settingsStatus tokens.access_token) = false →
          (ensureValidToken net st).2 =
            .error ("Refreshed token is invalid: " ++
              toString (net.settingsStatus tokens.access_token))) ∧
        (respOk (net.settingsStatus tokens.access_token) = true →
          (∀ e, net.ghRepository ≠ none → net.secretsUpdate = .error e →
            (ensureValidToken net st).2 = .error e) ∧
          (net.ghRepository = none →
            (ensureValidToken net st).2 =
              .ok ⟨tokens.access_token, tokens.refresh_token⟩) ∧
          (net.secretsUpdate = .ok () →
            (ensureValidToken net st).2 =
              .ok ⟨tokens.access_token, tokens.refresh_token⟩)))) ∧
    (net.settingsStatus st.accessToken ≠ 401 →
      ensureValidToken net st = ([.settingsProbe st.accessToken], .ok st)) := by
  constructor
  · intro h401
    refine ⟨?_, ?_, ?_⟩
    · cases hex : net.tokenExchange st.refreshToken with
      | error e => simp [ensureValidToken, h401, hex, isRefreshReq]
      | ok tokens =>
        cases hok : respOk (net.settingsStatus tokens.access_token) with
        | false =>
          simp [ensureValidToken, h401, hex, hok, isRefreshReq]
        | true =>
          cases hgr : net.ghRepository <;>
            simp [ensureValidToken, h401, hex, hok, hgr,
              updateGitHubTokenSecretsM, isRefreshReq]
    · intro e hex
      simp [ensureValidToken, h401, hex]
    · intro tokens hex
      refine ⟨?_, ?_, ?_⟩
      · cases hok : respOk (net.settingsStatus tokens.access_token) with
        | false =>
          simp [ensureValidToken, h401, hex, hok, isProbeReq]
        | true =>
          cases hgr : net.ghRepository <;>
            simp [ensureValidToken, h401, hex, hok, hgr,
              updateGitHubTokenSecretsM, isProbeReq]
      · intro hbad
        simp [ensureValidToken, h401, hex, hbad]
      · intro hok
        refine ⟨?_, ?_, ?_⟩
        · intro e hrepo hsec
          cases hgr : net.ghRepository with
          | none => exact absurd hgr hrepo
          | some r =>
            simp [ensureValidToken, h401, hex, hok, hgr,
              updateGitHubTokenSecretsM, hsec]
        · intro hrepo
          simp [ensureValidToken, h401, hex, hok, hrepo,
            updateGitHubTokenSecretsM]
        · intro hsec
          cases hgr : net.ghRepository <;>
            simp [ensureValidToken, h401, hex, hok, hgr,
              updateGitHubTokenSecretsM, hsec]
  · intro hne
    rw [ensureValidToken, if_neg hne]

/-- Witness for the amended C8: old token probes 401, the exchange
succeeds, the new token probes 200 and `GH_REPOSITORY` is unset, so the
run proceeds with the refreshed credentials after exactly one refresh
exchange. -/
theorem ensureValidToken_refresh_behaviour_witness :
    (ensureValidToken
        ⟨fun t => if t = "tok0" then 401 else 200,
         fun _ => .ok ⟨"tok1", "ref1", 3600, 0⟩,
         none, .ok ()⟩
        ⟨"tok0", "ref0"⟩).2 = .ok ⟨"tok1", "ref1"⟩ ∧
    ((ensureValidToken
        ⟨fun t => if t = "tok0" then 401 else 200,
         fun _ => .ok ⟨"tok1", "ref1", 3600, 0⟩,
         none, .ok ()⟩
        ⟨"tok0", "ref0"⟩).1.filter isRefreshReq).length = 1 := by
  have h := ensureValidToken_refresh_behaviour
    ⟨fun t => if t = "tok0" then 401 else 200,
     fun _ => .ok ⟨"tok1", "ref1", 3600, 0⟩,
     none, .ok ()⟩
    ⟨"tok0", "ref0"⟩
  have h401 := h.1 (by decide)
  refine ⟨?_, h401.1⟩
  exact ((h401.2.2 ⟨"tok1", "ref1", 3600, 0⟩ rfl).2.2 (by decide)).2.1 rfl

end Ykvlv
